import Mathlib

/-!
Verification of the gas-price forecasting script (`scripts/python_model.py`).

The script's own logic is: a recession tagger `is_great_recession`, a
partitioner `rename_and_train_test_split` (pandas rename + tag + date-bounded
filters), and an orchestrator `final_prophet_model` whose original logic is the
concatenation `all_data = concat([train, test])`, the call
`forecast = model.predict(all_data)` (note: the 24-period `future` frame is
built but not passed to `predict`), the positional slice
`forecast.iloc[288:, -1]`, and the MAE / RMSE formulas.  The Prophet model
itself is an external collaborator and is embedded as an uninterpreted
prediction function `Date → Nat → ℚ` (a function of the date and of the
`great_recession` regressor value in the row handed to `predict`).

Dates are embedded as (year, month, day) triples compared through the key
`year*10000 + month*100 + day`; on valid calendar dates this order coincides
with the `pd.Timestamp` / `datetime` order used by the script.  Prices and
predictions are embedded as rationals; the square root in the RMSE lives in
the reals.
-/

set_option maxRecDepth 4000

namespace GasModel

/-- A calendar date, as compared by `datetime` / `pd.Timestamp` in the script. -/
structure Date where
  year : Nat
  month : Nat
  day : Nat
deriving DecidableEq

/-- Encoding of a date for comparisons; on valid dates (month ≤ 12, day ≤ 31)
the induced order is the calendar order used by `datetime` comparison. -/
def Date.key (d : Date) : Nat := d.year * 10000 + d.month * 100 + d.day

instance : LE Date := ⟨fun a b => a.key ≤ b.key⟩

instance : LT Date := ⟨fun a b => a.key < b.key⟩

instance (a b : Date) : Decidable (a ≤ b) := inferInstanceAs (Decidable (a.key ≤ b.key))

instance (a b : Date) : Decidable (a < b) := inferInstanceAs (Decidable (a.key < b.key))

theorem Date.le_def (a b : Date) : a ≤ b ↔ a.key ≤ b.key := Iff.rfl

theorem Date.lt_def (a b : Date) : a < b ↔ a.key < b.key := Iff.rfl

/-- The month-start following `d` (pandas frequency `MS` stepping). -/
def Date.nextMonth (d : Date) : Date :=
  if d.month = 12 then ⟨d.year + 1, 1, 1⟩ else ⟨d.year, d.month + 1, 1⟩

/-- The list of `n` consecutive month-start dates beginning at `d`. -/
def monthStarts (d : Date) : Nat → List Date
  | 0 => []
  | n + 1 => d :: monthStarts d.nextMonth n

/-- Embedding of `is_great_recession` (python_model.py lines 13-29):
`pd.to_datetime` is the identity on already-parsed dates, and the function
returns 1 exactly when 2007-12-01 <= ds <= 2009-06-01, else 0. -/
def is_great_recession (ds : Date) : Nat :=
  if (⟨2007, 12, 1⟩ : Date) ≤ ds ∧ ds ≤ (⟨2009, 6, 1⟩ : Date) then 1 else 0

/-- A raw two-column dataframe, as produced by `pd.read_csv(..., usecols=[0, 1],
parse_dates=[0])` in `main`: a date column and a price column, each carrying its
header name, rows aligned positionally. -/
structure RawFrame where
  dateColName : String
  priceColName : String
  rows : List (Date × ℚ)
deriving DecidableEq

/-- A row of the tagged frame after the partitioner has added the
`great_recession` column (fields keep the post-rename column names). -/
structure TaggedRow where
  ds : Date
  y : ℚ
  great_recession : Nat
deriving DecidableEq

/-- The tagged three-column frame (the column labels travel with it: when the
raw price column was not named `gas_price`, `priceColName` is not `y`). -/
structure PFrame where
  dateColName : String
  priceColName : String
  rows : List TaggedRow
deriving DecidableEq

/-- The pandas column renaming `{gas_price: y, month_and_year: ds}`
(python_model.py line 48); keys absent from the frame are silently ignored,
which is the pandas `rename` default. -/
def renameKey (s : String) : String :=
  if s = "gas_price" then "y" else if s = "month_and_year" then "ds" else s

/-- Embedding of `dataframe.rename(columns={...})`: a fresh frame with the
mapped column names and the same rows. -/
def renameColumns (f : RawFrame) : RawFrame :=
  ⟨renameKey f.dateColName, renameKey f.priceColName, f.rows⟩

/-- Embedding of `dataframe["great_recession"] = dataframe["ds"].apply(is_great_recession)`
(python_model.py line 51): every row gets the tagger applied to its own `ds`. -/
def tagFrame (f : RawFrame) : PFrame :=
  ⟨f.dateColName, f.priceColName,
    f.rows.map fun r => ⟨r.1, r.2, is_great_recession r.1⟩⟩

/-- `start_date = pd.Timestamp(2016, 1, 1)` (python_model.py line 54). -/
def start_date : Date := ⟨2016, 1, 1⟩

/-- `last_date = pd.Timestamp(2018, 1, 1)` (python_model.py line 55). -/
def last_date : Date := ⟨2018, 1, 1⟩

/-- Embedding of `train_data = dataframe[(dataframe.ds < start_date)]`
(python_model.py line 58): boolean-mask selection, a fresh frame. -/
def trainOf (f : PFrame) : PFrame :=
  ⟨f.dateColName, f.priceColName, f.rows.filter fun r => decide (r.ds < start_date)⟩

/-- Embedding of
`test_data = dataframe[(dataframe.ds >= start_date) & (dataframe.ds <= last_date)]`
(python_model.py line 59). -/
def testOf (f : PFrame) : PFrame :=
  ⟨f.dateColName, f.priceColName,
    f.rows.filter fun r => decide (start_date ≤ r.ds) && decide (r.ds ≤ last_date)⟩

/-- Embedding of `rename_and_train_test_split` (python_model.py lines 31-61).
If after renaming no column is labelled `ds`, the attribute access
`dataframe["ds"]` raises a `KeyError`, embedded as `Except.error`; a missing
`gas_price` column raises nothing (pandas `rename` ignores absent keys). -/
def rename_and_train_test_split (f : RawFrame) :
    Except String (PFrame × PFrame) :=
  if (renameColumns f).dateColName = "ds" then
    .ok (trainOf (tagFrame (renameColumns f)), testOf (tagFrame (renameColumns f)))
  else
    .error "KeyError: ds"

/-- Embedding of `all_data = pd.concat([train_data, test_data], ignore_index=True)`
(python_model.py line 80): train rows followed by test rows. -/
def all_data_rows (train tst : PFrame) : List TaggedRow :=
  train.rows ++ tst.rows

/-- A row of the frame returned by the external model's `predict`: the input
date axis plus the prediction `yhat` (the frame's last column).  Predictions
are floating-point values in the script, embedded as rationals. -/
structure ForecastRow where
  ds : Date
  yhat : ℚ
deriving DecidableEq

/-- Embedding of `model.predict(df)` for a fitted Prophet model `m`, treated as
an external collaborator: one output row per input row, `yhat` a function of
the row's date and of its `great_recession` regressor value. -/
def predictRows (m : Date → Nat → ℚ) (data : List TaggedRow) : List ForecastRow :=
  data.map fun r => ⟨r.ds, m r.ds r.great_recession⟩

/-- The last date of a frame's `ds` column (the fitted history's end), used by
`make_future_dataframe` as the extension origin. -/
def lastDs (f : PFrame) : Date :=
  (f.rows.map TaggedRow.ds).foldl (fun a b => if a ≤ b then b else a) ⟨0, 1, 1⟩

/-- Embedding of `future = model.make_future_dataframe(periods=24, freq="MS")`
(python_model.py line 101): the fitted history's dates followed by 24 month
starts after the history's last date.  The script builds this frame (and tags
it, line 104) but never passes it to `predict`. -/
def make_future_dates (train : PFrame) : List Date :=
  train.rows.map TaggedRow.ds ++ monthStarts (lastDs train).nextMonth 24

/-- Embedding of `forecast = model.predict(all_data)` (python_model.py
line 107): the prediction is taken over the concatenated train+test frame, not
over `future`. -/
def forecastRows (m : Date → Nat → ℚ) (train tst : PFrame) : List ForecastRow :=
  predictRows m (all_data_rows train tst)

/-- Embedding of `y_predicted = forecast.iloc[288:, -1]` (python_model.py
line 123): positions 288 onward of the prediction's last column. -/
def y_predicted (m : Date → Nat → ℚ) (train tst : PFrame) : List ℚ :=
  ((forecastRows m train tst).drop 288).map ForecastRow.yhat

/-- Embedding of `y_actual = test_data.y` (python_model.py line 122). -/
def y_actual (tst : PFrame) : List ℚ :=
  tst.rows.map TaggedRow.y

/-- The residuals `y_predicted - y_actual`: in the script both series carry the
same pandas index (288..312), so the subtraction pairs them positionally. -/
def residuals (m : Date → Nat → ℚ) (train tst : PFrame) : List ℚ :=
  List.zipWith (fun p a => p - a) (y_predicted m train tst) (y_actual tst)

/-- Mean-absolute-error formula of python_model.py line 127
(`np.mean(np.abs(...))`) on a residual vector. -/
def mae_of (rs : List ℚ) : ℚ :=
  ((rs.map fun x => |x|).sum) / rs.length

/-- Root-mean-squared-error formula of python_model.py line 128
(`np.sqrt(mean_squared_error(...))`) on a residual vector: the square root is
irrational in general, so the value lives in `ℝ`. -/
noncomputable def rmse_of (rs : List ℚ) : ℝ :=
  Real.sqrt ((((rs.map fun x => x ^ 2).sum) / rs.length : ℚ) : ℝ)

/-- `test_mae = np.mean(np.abs(y_predicted - y_actual))` (python_model.py line 127). -/
def test_mae (m : Date → Nat → ℚ) (train tst : PFrame) : ℚ :=
  mae_of (residuals m train tst)

/-- `test_rmse = np.sqrt(mean_squared_error(y_actual, y_predicted))`
(python_model.py line 128). -/
noncomputable def test_rmse (m : Date → Nat → ℚ) (train tst : PFrame) : ℝ :=
  rmse_of (residuals m train tst)

/-- The standard input of the script (`scripts/forecasting_take_home_data.csv`):
monthly gas prices from 1992-01-01 through 2018-01-01, i.e. 313 month-start
rows.  The claims settled on it do not depend on the price values, taken
here to be 1. -/
def std_raw : RawFrame :=
  ⟨"month_and_year", "gas_price", (monthStarts ⟨1992, 1, 1⟩ 313).map fun d => (d, (1 : ℚ))⟩

/-- The tagged standard frame. -/
def std_tagged : PFrame := tagFrame (renameColumns std_raw)

/-- The standard training split (1992-01 .. 2015-12). -/
def std_train : PFrame := trainOf std_tagged

/-- The standard test split (2016-01 .. 2018-01). -/
def std_test : PFrame := testOf std_tagged

/-- A dataframe object held in memory: either a raw two-column frame or a
tagged three-column frame. -/
inductive Obj where
  | raw : RawFrame → Obj
  | pf : PFrame → Obj
deriving DecidableEq

/-- A heap of dataframe objects, referenced by position, used to settle the
aliasing and mutation claims about the partitioner. -/
abbrev Store := List Obj

/-- Embedding of `rename_and_train_test_split` with explicit allocation, for
the claims about mutation and aliasing.  `dataframe.rename(...)` returns a
fresh copy (the local name is rebound, python_model.py line 48); the
`great_recession` column assignment (line 51) mutates that copy in place,
never the caller's object; the two boolean-mask selections (lines 58-59)
each allocate a fresh frame.  The caller's object at `r` is never written. -/
def splitProg (s : Store) (r : Nat) : Option (Store × Nat × Nat) :=
  match s[r]? with
  | some (Obj.raw f) =>
    let f1 := renameColumns f
    if f1.dateColName = "ds" then
      let tagged := tagFrame f1
      some (s ++ [Obj.pf tagged, Obj.pf (trainOf tagged), Obj.pf (testOf tagged)],
        s.length + 1, s.length + 2)
    else
      none
  | _ => none

/-- A small well-formed input frame: one row per region of the date partition
(before 2016-01-01, on the boundary, after 2018-01-01). -/
def demoRaw : RawFrame :=
  ⟨"month_and_year", "gas_price",
    [(⟨2015, 12, 1⟩, 2), (⟨2016, 1, 1⟩, 3), (⟨2018, 2, 1⟩, 4)]⟩

/-- The same dates as `demoRaw` with different prices. -/
def demoRaw2 : RawFrame :=
  ⟨"month_and_year", "gas_price",
    [(⟨2015, 12, 1⟩, 7), (⟨2016, 1, 1⟩, 8), (⟨2018, 2, 1⟩, 9)]⟩

/-- The tagged form of `demoRaw`. -/
def demoTagged : PFrame := tagFrame (renameColumns demoRaw)

/-- The training split of `demoRaw`. -/
def demoTrain : PFrame := trainOf demoTagged

/-- The test split of `demoRaw`. -/
def demoTest : PFrame := testOf demoTagged

/-- A raw frame whose price column is not named `gas_price` (the malformed
input of the missing-column claim). -/
def noGasRaw : RawFrame := ⟨"month_and_year", "price", [(⟨2015, 12, 1⟩, 2)]⟩

/-- A one-object heap holding `demoRaw`. -/
def demoS1 : Store := [Obj.raw demoRaw]

/-- A heap holding an unrelated object and then a copy of `demoRaw`. -/
def demoS2 : Store := [Obj.pf demoTagged, Obj.raw demoRaw]

/-! ## Helper lemmas -/

theorem count_filter_ite {α : Type} [DecidableEq α] (p : α → Bool) (l : List α) (a : α) :
    (l.filter p).count a = if p a then l.count a else 0 := by
  split_ifs with h
  · exact List.count_filter h
  · rw [List.count_eq_zero]
    intro hmem
    exact h (List.mem_filter.mp hmem).2

theorem split_inv (f : RawFrame) (tr te : PFrame)
    (h : rename_and_train_test_split f = .ok (tr, te)) :
    tr = trainOf (tagFrame (renameColumns f)) ∧
    te = testOf (tagFrame (renameColumns f)) ∧
    (renameColumns f).dateColName = "ds" := by
  unfold rename_and_train_test_split at h
  split at h
  · simp only [Except.ok.injEq, Prod.mk.injEq] at h
    exact ⟨h.1.symm, h.2.symm, by assumption⟩
  · exact absurd h (by simp)

/-! ## C1: the recession window -/

/-- C1: for every date `d`, the tagger returns 1 exactly when
2007-12-01 ≤ d ≤ 2009-06-01 (both bounds inclusive) and 0 otherwise; in
particular it returns 1 at 2007-12-01 and 2009-06-01 and 0 at 2007-11-30 and
2009-06-02. -/
theorem c1_tagger_window :
    (∀ d : Date, is_great_recession d = 1 ↔
      ((⟨2007, 12, 1⟩ : Date) ≤ d ∧ d ≤ (⟨2009, 6, 1⟩ : Date))) ∧
    (∀ d : Date, is_great_recession d = 0 ↔
      ¬((⟨2007, 12, 1⟩ : Date) ≤ d ∧ d ≤ (⟨2009, 6, 1⟩ : Date))) ∧
    is_great_recession ⟨2007, 12, 1⟩ = 1 ∧
    is_great_recession ⟨2009, 6, 1⟩ = 1 ∧
    is_great_recession ⟨2007, 11, 30⟩ = 0 ∧
    is_great_recession ⟨2009, 6, 2⟩ = 0 := by
  refine ⟨fun d => ?_, fun d => ?_, by decide, by decide, by decide, by decide⟩
  · unfold is_great_recession
    split_ifs with h <;> simp [h]
  · unfold is_great_recession
    split_ifs with h <;> simp [h]

/-! ## C2: the partition cover -/

/-- C2: whenever the partitioner succeeds, each tagged row with
`ds < 2016-01-01` lands in Train with its full multiplicity, each tagged row
with `2016-01-01 ≤ ds ≤ 2018-01-01` lands in Test with its full multiplicity,
no row is in both, rows with `ds > 2018-01-01` are in neither, and a row dated
exactly 2016-01-01 is in Test and not in Train. -/
theorem c2_partition_cover (f : RawFrame) (tr te : PFrame)
    (h : rename_and_train_test_split f = .ok (tr, te)) :
    (∀ r : TaggedRow, tr.rows.count r =
      if r.ds < start_date then (tagFrame (renameColumns f)).rows.count r else 0) ∧
    (∀ r : TaggedRow, te.rows.count r =
      if start_date ≤ r.ds ∧ r.ds ≤ last_date
      then (tagFrame (renameColumns f)).rows.count r else 0) ∧
    (∀ r : TaggedRow, ¬(r ∈ tr.rows ∧ r ∈ te.rows)) ∧
    (∀ r : TaggedRow, last_date < r.ds → r ∉ tr.rows ∧ r ∉ te.rows) ∧
    (∀ r ∈ (tagFrame (renameColumns f)).rows, r.ds = start_date →
      r ∈ te.rows ∧ r ∉ tr.rows) := by
  obtain ⟨htr, hte, -⟩ := split_inv f tr te h
  subst htr; subst hte
  refine ⟨fun r => ?_, fun r => ?_, fun r hr => ?_, fun r hr => ⟨?_, ?_⟩, fun r hr hds => ⟨?_, ?_⟩⟩
  · rw [trainOf, count_filter_ite]
    simp
  · rw [testOf, count_filter_ite]
    simp
  · obtain ⟨h1, h2⟩ := hr
    have g1 := (List.mem_filter.mp h1).2
    have g2 := (List.mem_filter.mp h2).2
    simp only [decide_eq_true_eq, Bool.and_eq_true] at g1 g2
    rw [Date.lt_def] at g1
    rw [Date.le_def] at g2
    omega
  · intro hmem
    have g := (List.mem_filter.mp hmem).2
    simp only [decide_eq_true_eq] at g
    rw [Date.lt_def] at g hr
    have : start_date.key ≤ last_date.key := by decide
    omega
  · intro hmem
    have g := (List.mem_filter.mp hmem).2
    simp only [Bool.and_eq_true, decide_eq_true_eq, Date.le_def] at g
    rw [Date.lt_def] at hr
    omega
  · refine List.mem_filter.mpr ⟨hr, ?_⟩
    simp only [Bool.and_eq_true, decide_eq_true_eq]
    rw [hds]
    exact ⟨by decide, by decide⟩
  · intro hmem
    have g := (List.mem_filter.mp hmem).2
    simp only [decide_eq_true_eq] at g
    rw [hds, Date.lt_def] at g
    omega

/-- Witness for C2 on the concrete frame `demoRaw`: the hypotheses are
satisfiable and the boundary row dated 2016-01-01 is in Test, not Train. -/
theorem c2_partition_cover_witness :
    (⟨⟨2016, 1, 1⟩, 3, 0⟩ : TaggedRow) ∈ demoTest.rows ∧
    (⟨⟨2016, 1, 1⟩, 3, 0⟩ : TaggedRow) ∉ demoTrain.rows := by
  have h := c2_partition_cover demoRaw demoTrain demoTest rfl
  exact h.2.2.2.2 ⟨⟨2016, 1, 1⟩, 3, 0⟩ (by decide) (by decide)

/-! ## C5: a missing `gas_price` column does not stop the partitioner -/

/-- C5 counterexample: on a raw frame whose price column is not `gas_price`,
the partitioner raises no schema error at all — it returns `ok` (pandas
`rename` ignores missing keys), so the claimed `InputSchemaError` before model
configuration never happens. -/
theorem c5_counterexample :
    rename_and_train_test_split noGasRaw
      = Except.ok (⟨"ds", "price", [⟨⟨2015, 12, 1⟩, 2, 0⟩]⟩, ⟨"ds", "price", []⟩) ∧
    (trainOf (tagFrame (renameColumns noGasRaw))).priceColName ≠ "y" := by
  exact ⟨rfl, by decide⟩

/-- C5 as amended: when the raw frame's price column is missing (named
anything other than `gas_price`, and not already one of the reserved names),
the partitioner succeeds and returns splits that still lack a `y` column; the
script only fails later, inside the external model's `fit`, which runs after
the model has been configured. -/
theorem c5_rename_ignores_missing (f : RawFrame)
    (hdate : f.dateColName = "month_and_year")
    (h1 : f.priceColName ≠ "gas_price")
    (h2 : f.priceColName ≠ "month_and_year")
    (h3 : f.priceColName ≠ "y") :
    rename_and_train_test_split f
      = .ok (trainOf (tagFrame (renameColumns f)), testOf (tagFrame (renameColumns f))) ∧
    (trainOf (tagFrame (renameColumns f))).priceColName ≠ "y" ∧
    (testOf (tagFrame (renameColumns f))).priceColName ≠ "y" := by
  have hds : (renameColumns f).dateColName = "ds" := by
    simp [renameColumns, renameKey, hdate]
  have hp : (renameColumns f).priceColName = f.priceColName := by
    simp [renameColumns, renameKey, h1, h2]
  refine ⟨?_, ?_, ?_⟩
  · rw [rename_and_train_test_split, if_pos hds]
  · simpa [trainOf, tagFrame, hp] using h3
  · simpa [testOf, tagFrame, hp] using h3

/-- Witness for C5 as amended, at the concrete frame `noGasRaw`. -/
theorem c5_rename_ignores_missing_witness :
    rename_and_train_test_split noGasRaw
      = .ok (trainOf (tagFrame (renameColumns noGasRaw)),
             testOf (tagFrame (renameColumns noGasRaw))) ∧
    (trainOf (tagFrame (renameColumns noGasRaw))).priceColName ≠ "y" ∧
    (testOf (tagFrame (renameColumns noGasRaw))).priceColName ≠ "y" :=
  c5_rename_ignores_missing noGasRaw (by decide) (by decide) (by decide) (by decide)

/-! ## C9: the tag is a pure function of the date -/

/-- C9: the tagger is deterministic in its date argument; every row of the
tagged frame carries exactly the tagger's value at its own `ds`; and the tag
column depends only on the date column — two raw frames with the same dates
get the same tag column whatever their prices. -/
theorem c9_tag_pure :
    (∀ d d' : Date, d = d' → is_great_recession d = is_great_recession d') ∧
    (∀ f : RawFrame, ∀ r ∈ (tagFrame f).rows,
      r.great_recession = is_great_recession r.ds) ∧
    (∀ f₁ f₂ : RawFrame, f₁.rows.map Prod.fst = f₂.rows.map Prod.fst →
      (tagFrame f₁).rows.map TaggedRow.great_recession
        = (tagFrame f₂).rows.map TaggedRow.great_recession) := by
  refine ⟨fun d d' hd => by rw [hd], fun f r hr => ?_, fun f₁ f₂ hf => ?_⟩
  · simp only [tagFrame, List.mem_map] at hr
    obtain ⟨s, -, rfl⟩ := hr
    rfl
  · have key : ∀ g : RawFrame, (tagFrame g).rows.map TaggedRow.great_recession
        = (g.rows.map Prod.fst).map is_great_recession := by
      intro g
      simp [tagFrame, List.map_map]
    rw [key, key, hf]

/-- Witness for C9 at concrete inputs: `demoRaw` and `demoRaw2` share dates
but not prices, and get identical tag columns. -/
theorem c9_tag_pure_witness :
    is_great_recession ⟨2008, 1, 1⟩ = is_great_recession ⟨2008, 1, 1⟩ ∧
    (⟨⟨2015, 12, 1⟩, 2, 0⟩ : TaggedRow).great_recession
      = is_great_recession (⟨⟨2015, 12, 1⟩, 2, 0⟩ : TaggedRow).ds ∧
    (tagFrame demoRaw).rows.map TaggedRow.great_recession
      = (tagFrame demoRaw2).rows.map TaggedRow.great_recession := by
  have h := c9_tag_pure
  exact ⟨h.1 ⟨2008, 1, 1⟩ ⟨2008, 1, 1⟩ rfl,
    h.2.1 demoRaw ⟨⟨2015, 12, 1⟩, 2, 0⟩ (by decide),
    h.2.2 demoRaw demoRaw2 (by decide)⟩

/-! ## C6 and C8: determinism and absence of mutation, over the heap model -/

theorem splitProg_inv (s : Store) (r : Nat) (f : RawFrame) (s' : Store) (rt ts : Nat)
    (hf : s[r]? = some (Obj.raw f)) (h : splitProg s r = some (s', rt, ts)) :
    s' = s ++ [Obj.pf (tagFrame (renameColumns f)),
      Obj.pf (trainOf (tagFrame (renameColumns f))),
      Obj.pf (testOf (tagFrame (renameColumns f)))] ∧
    rt = s.length + 1 ∧ ts = s.length + 2 := by
  rw [splitProg, hf] at h
  simp only at h
  split at h
  · simp only [Option.some.injEq, Prod.mk.injEq] at h
    exact ⟨h.1.symm, h.2.1.symm, h.2.2.symm⟩
  · exact absurd h (by simp)

theorem getElem?_append3_fst {s : Store} {a b c : Obj} {r : Nat} (hr : r < s.length) :
    (s ++ [a, b, c])[r]? = s[r]? := by
  rw [List.getElem?_append]
  simp [hr]

theorem getElem?_append3_one (s : Store) (a b c : Obj) :
    (s ++ [a, b, c])[s.length + 1]? = some b := by
  rw [List.getElem?_append_right (by omega)]
  simp

theorem getElem?_append3_two (s : Store) (a b c : Obj) :
    (s ++ [a, b, c])[s.length + 2]? = some c := by
  rw [List.getElem?_append_right (by omega)]
  simp

/-- C8: the partitioner mutates nothing it was given and returns independent
frames: after `splitProg` the caller's object is unchanged at its reference,
the Train and Test references are distinct and hold the filtered frames, and
overwriting either one of them changes neither the other nor the caller's
object. -/
theorem c8_no_mutation (s : Store) (r : Nat) (f : RawFrame) (s' : Store) (rt ts : Nat)
    (hf : s[r]? = some (Obj.raw f)) (h : splitProg s r = some (s', rt, ts)) :
    s'[r]? = some (Obj.raw f) ∧
    rt ≠ ts ∧
    s'[rt]? = some (Obj.pf (trainOf (tagFrame (renameColumns f)))) ∧
    s'[ts]? = some (Obj.pf (testOf (tagFrame (renameColumns f)))) ∧
    (∀ v : Obj, (s'.set rt v)[ts]? = s'[ts]?) ∧
    (∀ v : Obj, (s'.set ts v)[rt]? = s'[rt]?) ∧
    (∀ v : Obj, (s'.set rt v)[r]? = some (Obj.raw f) ∧
      (s'.set ts v)[r]? = some (Obj.raw f)) := by
  obtain ⟨hs, hrt, hts⟩ := splitProg_inv s r f s' rt ts hf h
  subst hs; subst hrt; subst hts
  have hr : r < s.length := by
    by_contra hge
    rw [List.getElem?_eq_none (by omega)] at hf
    exact absurd hf (by simp)
  have hcaller : (s ++ [Obj.pf (tagFrame (renameColumns f)),
      Obj.pf (trainOf (tagFrame (renameColumns f))),
      Obj.pf (testOf (tagFrame (renameColumns f)))])[r]? = some (Obj.raw f) := by
    rw [getElem?_append3_fst hr, hf]
  refine ⟨hcaller, by omega, getElem?_append3_one .., getElem?_append3_two ..,
    fun v => List.getElem?_set_ne (by omega),
    fun v => List.getElem?_set_ne (by omega),
    fun v => ⟨?_, ?_⟩⟩
  · rw [List.getElem?_set_ne (by omega), hcaller]
  · rw [List.getElem?_set_ne (by omega), hcaller]

/-- Witness for C8 on the one-object heap `demoS1`. -/
theorem c8_no_mutation_witness :
    (demoS1 ++ [Obj.pf demoTagged, Obj.pf demoTrain, Obj.pf demoTest])[0]?
      = some (Obj.raw demoRaw) ∧
    (2 : Nat) ≠ 3 ∧
    (demoS1 ++ [Obj.pf demoTagged, Obj.pf demoTrain, Obj.pf demoTest])[2]?
      = some (Obj.pf (trainOf (tagFrame (renameColumns demoRaw)))) ∧
    ((demoS1 ++ [Obj.pf demoTagged, Obj.pf demoTrain, Obj.pf demoTest]).set 2
        (Obj.raw demoRaw))[3]?
      = (demoS1 ++ [Obj.pf demoTagged, Obj.pf demoTrain, Obj.pf demoTest])[3]? := by
  have h := c8_no_mutation demoS1 0 demoRaw
    (demoS1 ++ [Obj.pf demoTagged, Obj.pf demoTrain, Obj.pf demoTest]) 2 3 rfl rfl
  exact ⟨h.1, h.2.1, h.2.2.1, h.2.2.2.2.1 (Obj.raw demoRaw)⟩

/-- C6: the partitioner is deterministic in effect — two runs on references to
equal raw frames, in arbitrary and possibly different heaps, produce Train
objects with equal contents and Test objects with equal contents. -/
theorem c6_deterministic (s₁ s₂ : Store) (r₁ r₂ : Nat) (f : RawFrame)
    (s₁' s₂' : Store) (t₁ e₁ t₂ e₂ : Nat)
    (hf₁ : s₁[r₁]? = some (Obj.raw f)) (hf₂ : s₂[r₂]? = some (Obj.raw f))
    (h₁ : splitProg s₁ r₁ = some (s₁', t₁, e₁))
    (h₂ : splitProg s₂ r₂ = some (s₂', t₂, e₂)) :
    s₁'[t₁]? = s₂'[t₂]? ∧ s₁'[e₁]? = s₂'[e₂]? ∧
    s₁'[t₁]? = some (Obj.pf (trainOf (tagFrame (renameColumns f)))) ∧
    s₁'[e₁]? = some (Obj.pf (testOf (tagFrame (renameColumns f)))) := by
  obtain ⟨hs₁, hrt₁, hts₁⟩ := splitProg_inv s₁ r₁ f s₁' t₁ e₁ hf₁ h₁
  obtain ⟨hs₂, hrt₂, hts₂⟩ := splitProg_inv s₂ r₂ f s₂' t₂ e₂ hf₂ h₂
  subst hs₁; subst hrt₁; subst hts₁; subst hs₂; subst hrt₂; subst hts₂
  rw [getElem?_append3_one, getElem?_append3_two,
    getElem?_append3_one, getElem?_append3_two]
  exact ⟨rfl, rfl, rfl, rfl⟩

/-- Witness for C6: running the partitioner on `demoRaw` from two different
heaps (`demoS1` and `demoS2`) yields the same Train contents and the same Test
contents. -/
theorem c6_deterministic_witness :
    (demoS1 ++ [Obj.pf demoTagged, Obj.pf demoTrain, Obj.pf demoTest])[2]?
      = (demoS2 ++ [Obj.pf demoTagged, Obj.pf demoTrain, Obj.pf demoTest])[3]? ∧
    (demoS1 ++ [Obj.pf demoTagged, Obj.pf demoTrain, Obj.pf demoTest])[3]?
      = (demoS2 ++ [Obj.pf demoTagged, Obj.pf demoTrain, Obj.pf demoTest])[4]? := by
  have h := c6_deterministic demoS1 demoS2 0 1 demoRaw
    (demoS1 ++ [Obj.pf demoTagged, Obj.pf demoTrain, Obj.pf demoTest])
    (demoS2 ++ [Obj.pf demoTagged, Obj.pf demoTrain, Obj.pf demoTest])
    2 3 3 4 rfl rfl rfl rfl
  exact ⟨h.1, h.2.1⟩

/-! ## C10: order preservation -/

theorem filter_split_concat (l : List TaggedRow)
    (hl : l.Pairwise fun a b => a.ds ≤ b.ds) :
    l.filter (fun r => decide (r.ds < start_date)) ++
      l.filter (fun r => decide (start_date ≤ r.ds) && decide (r.ds ≤ last_date))
      = l.filter fun r => decide (r.ds ≤ last_date) := by
  induction l with
  | nil => simp
  | cons a t ih =>
    obtain ⟨hat, ht⟩ := List.pairwise_cons.mp hl
    by_cases h1 : a.ds < start_date
    · have h2 : a.ds ≤ last_date := by
        rw [Date.lt_def] at h1
        rw [Date.le_def]
        have : start_date.key ≤ last_date.key := by decide
        omega
      have hns : ¬start_date ≤ a.ds := by
        rw [Date.le_def]
        rw [Date.lt_def] at h1
        omega
      simp [List.filter_cons, h1, h2, hns, ih ht]
    · have hge : ∀ b ∈ t, start_date ≤ b.ds := by
        intro b hb
        have := hat b hb
        rw [Date.le_def] at this ⊢
        rw [Date.lt_def] at h1
        omega
      have hnone : t.filter (fun r => decide (r.ds < start_date)) = [] := by
        rw [List.filter_eq_nil_iff]
        intro b hb
        have := hge b hb
        rw [Date.le_def] at this
        simp only [decide_eq_true_eq, Date.lt_def]
        omega
      have hcongr : t.filter (fun r => decide (start_date ≤ r.ds) && decide (r.ds ≤ last_date))
          = t.filter fun r => decide (r.ds ≤ last_date) := by
        apply List.filter_congr
        intro b hb
        simp [hge b hb]
      by_cases h2 : a.ds ≤ last_date
      · have h1' : start_date ≤ a.ds := by
          rw [Date.le_def]
          rw [Date.lt_def] at h1
          omega
        simp [List.filter_cons, h1, h1', h2, hnone, hcongr]
      · simp [List.filter_cons, h1, h2, hnone, hcongr]

/-- C10: on an input whose rows are ordered by date ascending, Train and Test
are each ordered by date ascending, and Train followed by Test is exactly the
tagged input restricted to rows dated at most 2018-01-01, in input order. -/
theorem c10_order_preserved (f : RawFrame) (tr te : PFrame)
    (h : rename_and_train_test_split f = .ok (tr, te))
    (hs : f.rows.Pairwise fun a b => a.1 ≤ b.1) :
    tr.rows.Pairwise (fun a b => a.ds ≤ b.ds) ∧
    te.rows.Pairwise (fun a b => a.ds ≤ b.ds) ∧
    tr.rows ++ te.rows
      = (tagFrame (renameColumns f)).rows.filter fun r => decide (r.ds ≤ last_date) := by
  obtain ⟨htr, hte, -⟩ := split_inv f tr te h
  subst htr; subst hte
  have htag : (tagFrame (renameColumns f)).rows.Pairwise fun a b => a.ds ≤ b.ds := by
    rw [tagFrame]
    exact List.pairwise_map.mpr hs
  exact ⟨List.Pairwise.filter _ htag, List.Pairwise.filter _ htag,
    filter_split_concat _ htag⟩

/-- Witness for C10 on the date-sorted concrete frame `demoRaw`: the row dated
2018-02-01 is dropped and the remaining rows keep their order. -/
theorem c10_order_preserved_witness :
    demoTrain.rows.Pairwise (fun a b => a.ds ≤ b.ds) ∧
    demoTrain.rows ++ demoTest.rows
      = (tagFrame (renameColumns demoRaw)).rows.filter
          (fun r => decide (r.ds ≤ last_date)) := by
  have h := c10_order_preserved demoRaw demoTrain demoTest rfl (by decide)
  exact ⟨h.1, h.2.2⟩

/-! ## C3: the forecast's date axis -/

theorem forecast_ds_axis (m : Date → Nat → ℚ) (l : List TaggedRow) :
    (predictRows m l).map ForecastRow.ds = l.map TaggedRow.ds := by
  rw [predictRows, List.map_map]
  rfl

/-- C3 counterexample: on the standard 1992-01..2018-01 monthly input, the
prediction output (`model.predict(all_data)`) contains zero rows dated
strictly after 2018-01-01 — not the claimed 24 — because the 24-period
`future` frame is never the argument of `predict`. -/
theorem c3_counterexample :
    List.countP (fun d => decide (last_date < d))
      ((forecastRows (fun _ _ => 0) std_train std_test).map ForecastRow.ds) = 0 ∧
    List.countP (fun d => decide (last_date < d))
      ((forecastRows (fun _ _ => 0) std_train std_test).map ForecastRow.ds) ≠ 24 := by
  rw [forecastRows, forecast_ds_axis]
  exact ⟨by decide, by decide⟩

theorem monthStarts_length (d : Date) (n : Nat) : (monthStarts d n).length = n := by
  induction n generalizing d with
  | zero => rfl
  | succ k ih => simp [monthStarts, ih]

/-- C3 as amended: on the standard monthly input the prediction output's date
axis equals the combined Train+Test date axis (313 rows, ending 2018-01-01)
and has zero rows dated strictly after 2018-01-01; the future frame built by
`make_future_dataframe` does extend the training axis by 24 periods
(288 + 24 dates) but is never the argument of `predict`. -/
theorem c3_forecast_axis (m : Date → Nat → ℚ) :
    (forecastRows m std_train std_test).map ForecastRow.ds
      = (all_data_rows std_train std_test).map TaggedRow.ds ∧
    List.countP (fun d => decide (last_date < d))
      ((forecastRows m std_train std_test).map ForecastRow.ds) = 0 ∧
    (all_data_rows std_train std_test).length = 313 ∧
    (make_future_dates std_train).length = 288 + 24 := by
  rw [forecastRows, forecast_ds_axis]
  have hfut : (make_future_dates std_train).length = 288 + 24 := by
    rw [make_future_dates, List.length_append, List.length_map, monthStarts_length]
    have : std_train.rows.length = 288 := by decide
    rw [this]
  exact ⟨rfl, by decide, by decide, hfut⟩

/-! ## C4: positional alignment of the test metrics -/

/-- C4 counterexample: on the standard input the slice `forecast.iloc[288:]`
holds the last 25 rows of the 313-row prediction output, not the last 24; it
is the Test split that has 25 rows. -/
theorem c4_counterexample :
    ((forecastRows (fun _ _ => 0) std_train std_test).drop 288).length = 25 ∧
    std_test.rows.length = 25 ∧
    (forecastRows (fun _ _ => 0) std_train std_test).length - 25 = 288 ∧
    (25 : Nat) ≠ 24 := by
  refine ⟨?_, by decide, ?_, by decide⟩
  · rw [List.length_drop, forecastRows, predictRows, List.length_map]
    decide
  · rw [forecastRows, predictRows, List.length_map]
    decide

theorem std_drop_288 (m : Date → Nat → ℚ) :
    (forecastRows m std_train std_test).drop 288 = predictRows m std_test.rows := by
  have hlen : (predictRows m std_train.rows).length = 288 := by
    rw [predictRows, List.length_map]
    decide
  rw [forecastRows, all_data_rows, predictRows, List.map_append, ← predictRows,
    ← predictRows, ← hlen, List.drop_left]

theorem zipWith_map_same {α β γ δ : Type} (f : β → γ → δ) (g : α → β) (h : α → γ)
    (l : List α) :
    List.zipWith f (l.map g) (l.map h) = l.map fun x => f (g x) (h x) := by
  induction l with
  | nil => rfl
  | cons a t ih => simp [ih]

/-- C4 as amended: on the standard input the test metrics are computed over
the last 25 rows of the prediction output (positions 288..312), which number
exactly as many as the 25 Test rows and carry exactly the Test dates in
order; over those pairs the test MAE is the mean absolute residual and the
test RMSE is the square root of the mean squared residual. -/
theorem c4_test_alignment (m : Date → Nat → ℚ) :
    ((forecastRows m std_train std_test).drop 288).map ForecastRow.ds
      = std_test.rows.map TaggedRow.ds ∧
    ((forecastRows m std_train std_test).drop 288).length = std_test.rows.length ∧
    std_test.rows.length = 25 ∧
    test_mae m std_train std_test
      = ((std_test.rows.map fun r => |m r.ds r.great_recession - r.y|).sum) / 25 ∧
    test_rmse m std_train std_test
      = Real.sqrt ((((std_test.rows.map fun r =>
          (m r.ds r.great_recession - r.y) ^ 2).sum) / 25 : ℚ) : ℝ) := by
  have hres : residuals m std_train std_test
      = std_test.rows.map fun r => m r.ds r.great_recession - r.y := by
    rw [residuals, y_predicted, std_drop_288, y_actual, predictRows, List.map_map]
    exact zipWith_map_same _ _ _ _
  have hlen25 : (std_test.rows.map fun r => m r.ds r.great_recession - r.y).length = 25 := by
    rw [List.length_map]
    decide
  refine ⟨?_, ?_, by decide, ?_, ?_⟩
  · rw [std_drop_288, forecast_ds_axis]
  · rw [std_drop_288, predictRows, List.length_map]
  · rw [test_mae, mae_of, hres, hlen25, List.map_map]
    norm_num
    rfl
  · rw [test_rmse, rmse_of, hres, hlen25, List.map_map]
    norm_num
    rfl

/-! ## C7: the metric inequality -/

theorem sum_map_sq_nonneg (l : List ℚ) (f : ℚ → ℚ) :
    0 ≤ (l.map fun x => f x ^ 2).sum := by
  apply List.sum_nonneg
  intro x hx
  simp only [List.mem_map] at hx
  obtain ⟨a, -, rfl⟩ := hx
  exact sq_nonneg (f a)

theorem sum_map_sq_eq_zero (l : List ℚ) (f : ℚ → ℚ)
    (h : (l.map fun x => f x ^ 2).sum = 0) : ∀ x ∈ l, f x = 0 := by
  induction l with
  | nil => intro x hx; exact absurd hx (List.not_mem_nil x)
  | cons a t ih =>
    simp only [List.map_cons, List.sum_cons] at h
    have ht0 : 0 ≤ (t.map fun x => f x ^ 2).sum := sum_map_sq_nonneg t f
    have ha0 : 0 ≤ f a ^ 2 := sq_nonneg (f a)
    have ha : f a ^ 2 = 0 := by linarith
    intro x hx
    rcases List.mem_cons.mp hx with rfl | hx
    · exact pow_eq_zero_iff (by norm_num) |>.mp ha
    · exact ih (by linarith) x hx

theorem sum_sq_sub_expand (l : List ℚ) (m : ℚ) :
    (l.map fun x => (|x| - m) ^ 2).sum
      = (l.map fun x => x ^ 2).sum - 2 * m * (l.map fun x => |x|).sum
        + l.length * m ^ 2 := by
  induction l with
  | nil => simp
  | cons a t ih =>
    simp only [List.map_cons, List.sum_cons, List.length_cons]
    push_cast
    linear_combination ih + sq_abs a

/-- C7: for every non-empty residual vector, the MAE and RMSE formulas of the
script yield non-negative values with MAE ≤ RMSE, and the two are equal only
when every absolute residual equals their common mean. -/
theorem c7_rmse_ge_mae (rs : List ℚ) (hne : rs ≠ []) :
    0 ≤ mae_of rs ∧ 0 ≤ rmse_of rs ∧ (mae_of rs : ℝ) ≤ rmse_of rs ∧
    (rmse_of rs = (mae_of rs : ℝ) → ∀ x ∈ rs, |x| = mae_of rs) := by
  have hn : 0 < (rs.length : ℚ) := by
    have := List.length_pos.mpr hne
    exact_mod_cast this
  have hS1 : 0 ≤ (rs.map fun x => |x|).sum := by
    apply List.sum_nonneg
    intro x hx
    simp only [List.mem_map] at hx
    obtain ⟨a, -, rfl⟩ := hx
    exact abs_nonneg a
  have hS2 : 0 ≤ (rs.map fun x => x ^ 2).sum := by
    simpa using sum_map_sq_nonneg rs id
  have hmae0 : 0 ≤ mae_of rs := div_nonneg hS1 hn.le
  have hmn : (rs.length : ℚ) * mae_of rs = (rs.map fun x => |x|).sum := by
    rw [mae_of]
    field_simp
  have hmain : (rs.map fun x => (|x| - mae_of rs) ^ 2).sum
      = (rs.map fun x => x ^ 2).sum - (rs.length : ℚ) * mae_of rs ^ 2 := by
    rw [sum_sq_sub_expand]
    linear_combination (2 * mae_of rs) * hmn
  have hK : 0 ≤ (rs.map fun x => x ^ 2).sum - (rs.length : ℚ) * mae_of rs ^ 2 := by
    rw [← hmain]
    exact sum_map_sq_nonneg rs fun x => |x| - mae_of rs
  have hmsq : mae_of rs ^ 2 ≤ (rs.map fun x => x ^ 2).sum / (rs.length : ℚ) :=
    (le_div_iff₀ hn).mpr (by linarith)
  have hy : (0 : ℝ) ≤ (((rs.map fun x => x ^ 2).sum / (rs.length : ℚ) : ℚ) : ℝ) := by
    have : (0 : ℚ) ≤ (rs.map fun x => x ^ 2).sum / (rs.length : ℚ) :=
      div_nonneg hS2 hn.le
    exact_mod_cast this
  refine ⟨hmae0, Real.sqrt_nonneg _, ?_, ?_⟩
  · rw [rmse_of]
    refine (Real.le_sqrt (by exact_mod_cast hmae0) hy).mpr ?_
    exact_mod_cast hmsq
  · intro heq x hx
    rw [rmse_of] at heq
    have hc : (((rs.map fun x => x ^ 2).sum / (rs.length : ℚ) : ℚ) : ℝ)
        = ((mae_of rs : ℝ)) ^ 2 := by
      rw [← Real.sq_sqrt hy, heq]
    have hcq : (rs.map fun x => x ^ 2).sum / (rs.length : ℚ) = mae_of rs ^ 2 := by
      exact_mod_cast hc
    have hS2eq : (rs.map fun x => x ^ 2).sum = (rs.length : ℚ) * mae_of rs ^ 2 := by
      rw [div_eq_iff hn.ne'] at hcq
      linarith [hcq]
    have hzero : (rs.map fun x => (|x| - mae_of rs) ^ 2).sum = 0 := by
      rw [hmain, hS2eq]
      ring
    have h0 : |x| - mae_of rs = 0 :=
      sum_map_sq_eq_zero rs (fun x => |x| - mae_of rs) hzero x hx
    linarith

/-- Witness for C7 on the concrete residual vector `[1, -2]`. -/
theorem c7_rmse_ge_mae_witness :
    0 ≤ mae_of [1, -2] ∧ 0 ≤ rmse_of [1, -2] ∧
    (mae_of [1, -2] : ℝ) ≤ rmse_of [1, -2] := by
  have h := c7_rmse_ge_mae [1, -2] (by decide)
  exact ⟨h.1, h.2.1, h.2.2.1⟩

end GasModel
